import Mathlib

/-!
Verification of the Quiziq repository core: the per-identity rate limiter
(src/lib/rateLimit.ts), the quiz generation endpoint (src/pages/api/quiz.ts)
and the quiz session state machine (src/pages/dashboard.tsx), shallowly
embedded as pure Lean functions. Firestore state is passed explicitly
(the stored rate-limit record as an Option, the React component state as a
SessionState record); clock reads and the Math.random shuffle are parameters.
-/

namespace Quiziq

/-! ## Rate limiter (src/lib/rateLimit.ts) -/

/-- The Firestore document at rateLimits/userId (interface RateLimitData). -/
structure RateLimitData where
  dailyCount : Nat
  monthlyCount : Nat
  lastDailyReset : String
  lastMonthlyReset : String
deriving DecidableEq, Repr

def DAILY_LIMIT : Nat := 20

def MONTHLY_LIMIT : Nat := 100

/-- The result object of checkRateLimit: allowed, optional reason, optional
remaining quota pair (daily, monthly). -/
structure RateLimitResult where
  allowed : Bool
  reason : Option String
  remaining : Option (Nat × Nat)
deriving DecidableEq, Repr

def dailyLimitMsg : String := "Daily limit of 20 requests exceeded. Resets at midnight."

def monthlyLimitMsg : String := "Monthly limit of 100 requests exceeded. Resets next month."

/-- checkRateLimit (rateLimit.ts lines 14-84). The Firestore document is the
`store` argument; the returned pair is (HTTP-level result, document after the
call). `today` and `thisMonth` are the UTC date and month strings the source
computes from the clock at entry. -/
def checkRateLimit (store : Option RateLimitData) (today thisMonth : String) :
    RateLimitResult × Option RateLimitData :=
  match store with
  | none =>
      -- First request - initialize (lines 21-37).
      (⟨true, none, some (DAILY_LIMIT - 1, MONTHLY_LIMIT - 1)⟩,
       some ⟨1, 1, today, thisMonth⟩)
  | some data =>
      -- Reset daily count if it is a new day (lines 43-46).
      let dailyCount := if data.lastDailyReset ≠ today then 0 else data.dailyCount
      let lastDailyReset := if data.lastDailyReset ≠ today then today else data.lastDailyReset
      -- Reset monthly count if it is a new month (lines 49-52).
      let monthlyCount := if data.lastMonthlyReset ≠ thisMonth then 0 else data.monthlyCount
      let lastMonthlyReset :=
        if data.lastMonthlyReset ≠ thisMonth then thisMonth else data.lastMonthlyReset
      -- Check limits (lines 55-67): both reject branches return without any write.
      if DAILY_LIMIT ≤ dailyCount then
        (⟨false, some dailyLimitMsg, none⟩, some data)
      else if MONTHLY_LIMIT ≤ monthlyCount then
        (⟨false, some monthlyLimitMsg, none⟩, some data)
      else
        -- Increment counters and persist (lines 70-83).
        (⟨true, none, some (DAILY_LIMIT - (dailyCount + 1), MONTHLY_LIMIT - (monthlyCount + 1))⟩,
         some ⟨dailyCount + 1, monthlyCount + 1, lastDailyReset, lastMonthlyReset⟩)

/-- The stored record after n consecutive checkRateLimit calls from a fresh
identity, all within the same UTC day and month. -/
def iterateCheck (today thisMonth : String) : Nat → Option RateLimitData
  | 0 => none
  | n + 1 => (checkRateLimit (iterateCheck today thisMonth n) today thisMonth).2

/-- The result of call number n+1 (zero-based n) in that same-day sequence. -/
def nthCallResult (today thisMonth : String) (n : Nat) : RateLimitResult :=
  (checkRateLimit (iterateCheck today thisMonth n) today thisMonth).1

/-! ## Quiz generation endpoint (src/pages/api/quiz.ts) -/

/-- QuizQuestion (types/quiz.ts and api/quiz.ts lines 4-9). answerIndex is an
Int: the upstream generator returns an arbitrary JSON number. -/
structure Question where
  question : String
  options : List String
  answerIndex : Int
  explanation : String
deriving DecidableEq, Repr

/-- QuizPayload / the dashboard Quiz type: title plus question list. -/
structure Quiz where
  title : String
  questions : List Question
deriving DecidableEq, Repr

/-- The QuizQuestion invariant of the spec: 0 <= answerIndex < options length. -/
def questionInvariant (q : Question) : Prop :=
  0 ≤ q.answerIndex ∧ q.answerIndex < q.options.length

instance (q : Question) : Decidable (questionInvariant q) := by
  unfold questionInvariant; infer_instance

/-- A JS falsy check for an optional string: undefined or the empty string. -/
def isFalsyStr : Option String → Bool
  | none => true
  | some s => s = ""

/-- Number(count) || 10 (quiz.ts line 129): a missing or non-numeric count is
NaN (modelled none) and falls back to 10, as does the falsy number 0. -/
def numberOrTen : Option Int → Int
  | none => 10
  | some n => if n = 0 then 10 else n

/-- safeCount (quiz.ts line 129): Math.min(Math.max(Number(count) || 10, 3), 20). -/
def safeCount (count : Option Int) : Int :=
  min (max (numberOrTen count) 3) 20

/-- safeQuestionType (quiz.ts line 130): questionType || default. -/
def safeQuestionTypeOf : Option String → String
  | none => "multiple-choice"
  | some qt => if qt = "" then "multiple-choice" else qt

/-- safeDifficulty (quiz.ts lines 131-137). -/
def safeDifficultyOf : Option String → String
  | none => "mixed"
  | some d =>
      if d = "beginner" ∨ d = "intermediate" ∨ d = "advanced" ∨ d = "mixed" then d else "mixed"

/-- The request body fields the handler destructures (quiz.ts line 94), plus
the HTTP method. Optional fields model absent or non-string JSON values. -/
structure QuizRequest where
  method : String
  mode : Option String
  topic : Option String
  studyGuide : Option String
  questionType : Option String
  difficulty : Option String
  count : Option Int
  userId : Option String
deriving DecidableEq, Repr

/-- How the handler leaves the pre-upstream phase (quiz.ts lines 88-137):
either an early response, or it proceeds to the upstream call carrying the
validated content and the sanitized settings. -/
inductive ApiOutcome where
  | methodNotAllowed
  | authRequired
  | rateLimited (reason : Option String)
  | invalidMode
  | missingContent (msg : String)
  | proceed (content : String) (count : Int) (questionType : String) (difficulty : String)
deriving DecidableEq, Repr

/-- The handler from entry to just before the upstream fetch (quiz.ts lines
88-137), with the rate-limit store threaded through. The order is exactly the
source order: method, userId, checkRateLimit, mode, content, then the count
clamp inside the proceed outcome. -/
def handlerValidate (req : QuizRequest) (store : Option RateLimitData)
    (today thisMonth : String) : ApiOutcome × Option RateLimitData :=
  if req.method ≠ "POST" then (.methodNotAllowed, store)
  else if isFalsyStr req.userId then (.authRequired, store)
  else
    let rl := checkRateLimit store today thisMonth
    if rl.1.allowed = false then (.rateLimited rl.1.reason, rl.2)
    else if ¬ (req.mode = some "topic" ∨ req.mode = some "studyGuide") then
      (.invalidMode, rl.2)
    else
      let content := if req.mode = some "topic" then req.topic else req.studyGuide
      if isFalsyStr content then
        (.missingContent
          (if req.mode = some "topic" then "Topic is required" else "Study guide is required"),
         rl.2)
      else
        (.proceed (content.getD "") (safeCount req.count)
          (safeQuestionTypeOf req.questionType) (safeDifficultyOf req.difficulty), rl.2)

/-- The post-parse normalization (quiz.ts lines 189-198): reject an empty
questions array, trim the tail when the upstream over-delivered, otherwise
pass the payload through unchanged. -/
def normalizeResponse (parsed : Quiz) (requested : Nat) : Except String Quiz :=
  if parsed.questions.length = 0 then Except.error "Invalid AI response format"
  else if requested < parsed.questions.length then
    Except.ok { parsed with questions := parsed.questions.take requested }
  else Except.ok parsed

/-! ## Quiz session state machine (src/pages/dashboard.tsx) -/

/-- AnswerRecord (dashboard.tsx lines 38-42). -/
structure AnswerRecord where
  selected : Option Int
  correct : Int
  timeSpent : Nat
deriving DecidableEq, Repr

/-- The page-level React state that makes up one quiz session (dashboard.tsx
lines 83-104). Time stamps are milliseconds. -/
structure SessionState where
  title : String
  questions : List Question
  currentQuestion : Nat
  selectedAnswer : Option Int
  showExplanation : Bool
  score : Nat
  quizComplete : Bool
  answers : List AnswerRecord
  questionStartedAt : Option Nat
  currentStreak : Nat
  bestStreak : Nat
  responseTimes : List Nat
  fiftyFiftyUsed : Bool
  hintUsed : Bool
  eliminatedOptions : List Int
  hintText : Option String
  practiceMode : Bool
deriving DecidableEq, Repr

/-- Math.round(num/den) for non-negative operands: round half up. -/
def jsRoundDiv (num den : Nat) : Nat := (2 * num + den) / (2 * den)

/-- Elapsed seconds on submit (dashboard.tsx lines 238-240):
questionStartedAt set gives max(1, Math.round((now - started)/1000)), unset gives 0. -/
def elapsedSecondsOf (questionStartedAt : Option Nat) (now : Nat) : Nat :=
  match questionStartedAt with
  | some started => max 1 (jsRoundDiv (now - started) 1000)
  | none => 0

/-- The session right after a successful generation (dashboard.tsx lines
190-212): everything reset, practiceMode false, question timer started. -/
def initialSession (title : String) (qs : List Question) (now : Nat) : SessionState where
  title := title
  questions := qs
  currentQuestion := 0
  selectedAnswer := none
  showExplanation := false
  score := 0
  quizComplete := false
  answers := []
  questionStartedAt := some now
  currentStreak := 0
  bestStreak := 0
  responseTimes := []
  fiftyFiftyUsed := false
  hintUsed := false
  eliminatedOptions := []
  hintText := none
  practiceMode := false

/-- handleSelectAnswer (dashboard.tsx lines 221-224): rejected once revealed
or when the option was eliminated by 50/50. -/
def handleSelectAnswer (s : SessionState) (index : Int) : SessionState :=
  if s.showExplanation || s.eliminatedOptions.contains index then s
  else { s with selectedAnswer := some index }

/-- handleSubmitAnswer (dashboard.tsx lines 226-267). `forced` models the
optional forcedSelection argument (outer none = the argument was omitted). -/
def handleSubmitAnswer (s : SessionState) (forced : Option (Option Int)) (now : Nat) :
    SessionState :=
  if s.showExplanation then s
  else
    match s.questions[s.currentQuestion]? with
    | none => s
    | some currentQ =>
        let answerToUse := match forced with
          | some sel => sel
          | none => s.selectedAnswer
        match answerToUse with
        | none => s
        | some ans =>
            let elapsedSeconds := elapsedSecondsOf s.questionStartedAt now
            let correct := currentQ.answerIndex
            let nextStreak := if ans = correct then s.currentStreak + 1 else 0
            { s with
              score := if ans = correct then s.score + 1 else s.score
              currentStreak := nextStreak
              bestStreak := max s.bestStreak nextStreak
              answers := s.answers ++ [⟨some ans, correct, elapsedSeconds⟩]
              responseTimes := s.responseTimes ++ [elapsedSeconds]
              showExplanation := true }

/-- resetPerQuestionState (dashboard.tsx lines 144-150). -/
def resetPerQuestionState (s : SessionState) (now : Nat) : SessionState :=
  { s with
    selectedAnswer := none
    showExplanation := false
    eliminatedOptions := []
    hintText := none
    questionStartedAt := some now }

/-- handleNextQuestion (dashboard.tsx lines 269-278). -/
def handleNextQuestion (s : SessionState) (now : Nat) : SessionState :=
  if s.currentQuestion < s.questions.length - 1 then
    resetPerQuestionState { s with currentQuestion := s.currentQuestion + 1 } now
  else { s with quizComplete := true }

/-- The incorrect-option index list the 50/50 lifeline draws from
(dashboard.tsx lines 313-315). -/
def incorrectIndices (q : Question) : List Int :=
  (((List.range q.options.length).map Int.ofNat).filter
    (fun i => i ≠ q.answerIndex))

/-- handleUseFiftyFifty (dashboard.tsx lines 307-325). The Math.random driven
sort is the `shuffle` parameter; the source keeps the first two entries of the
shuffled incorrect list and clears a selection that was eliminated. -/
def handleUseFiftyFifty (s : SessionState) (shuffle : List Int → List Int) : SessionState :=
  if s.showExplanation || s.fiftyFiftyUsed then s
  else
    match s.questions[s.currentQuestion]? with
    | none => s
    | some currentQ =>
        if currentQ.options.length < 4 then s
        else
          let toEliminate := (shuffle (incorrectIndices currentQ)).take 2
          let cleared := match s.selectedAnswer with
            | some sel => if toEliminate.contains sel then none else some sel
            | none => none
          { s with
            eliminatedOptions := toEliminate
            fiftyFiftyUsed := true
            selectedAnswer := cleared }

def isSentenceEnd (c : Char) : Bool := c = '.' || c = '!' || c = '?'

/-- getHintFromExplanation (dashboard.tsx lines 57-64): collapse whitespace,
take the first sentence, truncate at 180 characters with a trailing ellipsis. -/
def getHintFromExplanation (explanation : String) : String :=
  let normalized :=
    " ".intercalate ((explanation.split Char.isWhitespace).filter (fun w => w ≠ ""))
  let cs := normalized.toList
  let rest := cs.dropWhile isSentenceEnd
  let firstSentence :=
    if rest.isEmpty then normalized
    else
      String.mk
        (rest.takeWhile (fun c => !isSentenceEnd c) ++
          (rest.dropWhile (fun c => !isSentenceEnd c)).take 1)
  if firstSentence.length ≤ 180 then firstSentence
  else (firstSentence.take 177) ++ "..."

/-- handleUseHint (dashboard.tsx lines 327-334). -/
def handleUseHint (s : SessionState) : SessionState :=
  if s.showExplanation || s.hintUsed then s
  else
    match s.questions[s.currentQuestion]? with
    | none => s
    | some currentQ =>
        { s with hintText := some (getHintFromExplanation currentQ.explanation), hintUsed := true }

/-- The missed-question filter of handleRetryMissedQuestionsQuestions (dashboard.tsx
lines 339-342): keep a question when it has no answer record or its recorded
selection differs from the correct index. -/
def missedQuestions (qs : List Question) (answers : List AnswerRecord) : List Question :=
  ((qs.enum.filter (fun p =>
      match answers[p.1]? with
      | none => true
      | some a => a.selected ≠ some a.correct)).map Prod.snd)

/-- handleRetryMissedQuestionsQuestions (dashboard.tsx lines 336-366). -/
def handleRetryMissedQuestions (s : SessionState) (now : Nat) : SessionState :=
  let missed := missedQuestions s.questions s.answers
  if missed.isEmpty then s
  else
    { s with
      title := s.title ++ " • Mistake Remix"
      questions := missed
      practiceMode := true
      currentQuestion := 0
      selectedAnswer := none
      showExplanation := false
      score := 0
      quizComplete := false
      answers := []
      currentStreak := 0
      bestStreak := 0
      responseTimes := []
      fiftyFiftyUsed := false
      hintUsed := false
      eliminatedOptions := []
      hintText := none
      questionStartedAt := some now }

/-- One user action on a live session. Restart and regeneration create a new
session object and are not session operations. -/
inductive SessionOp where
  | select (index : Int)
  | submit (forced : Option (Option Int)) (now : Nat)
  | next (now : Nat)
  | fiftyFifty (shuffle : List Int → List Int)
  | useHint
  | retryMissed (now : Nat)

def applyOp (s : SessionState) : SessionOp → SessionState
  | .select i => handleSelectAnswer s i
  | .submit f now => handleSubmitAnswer s f now
  | .next now => handleNextQuestion s now
  | .fiftyFifty sh => handleUseFiftyFifty s sh
  | .useHint => handleUseHint s
  | .retryMissed now => handleRetryMissedQuestions s now

def applyOps (s : SessionState) : List SessionOp → SessionState
  | [] => s
  | op :: rest => applyOps (applyOp s op) rest

/-- Answer every remaining question: each pair is the submitted option index
and the Date.now() read at submit, followed by the advance to the next
question (or to completion). -/
def playQuiz (s : SessionState) : List (Int × Nat) → SessionState
  | [] => s
  | (sel, now) :: rest =>
      playQuiz (handleNextQuestion (handleSubmitAnswer s (some (some sel)) now) now) rest

/-- How many of the submitted selections hit their questions answerIndex. -/
def countCorrect (qs : List Question) (sels : List Int) : Nat :=
  (qs.zip sels).countP (fun p => p.2 == p.1.answerIndex)

/-- The percent shown on the completion view (dashboard.tsx line 546):
Math.round((score / questions.length) * 100), or 0 for an empty quiz. -/
def displayPercent (s : SessionState) : Nat :=
  if 0 < s.questions.length then jsRoundDiv (100 * s.score) s.questions.length else 0

/-- The guard of the history-saving effect (dashboard.tsx line 491): complete,
signed in, not yet saved for this session object, and not practice mode. -/
def saveHistoryFires (s : SessionState) (userPresent hasSaved : Bool) : Bool :=
  s.quizComplete && userPresent && !hasSaved && !s.practiceMode

/-- What a run of save-effect invocations did: addDoc calls issued, addDoc
calls that succeeded, and the hasSavedRef flag afterwards. -/
structure SaveRunStats where
  issued : Nat
  succeeded : Nat
  hasSavedAfter : Bool
deriving DecidableEq, Repr

/-- Re-invocations of the saveHistory effect (dashboard.tsx lines 490-527),
each run to completion, with `outcomes` the success of each attempted addDoc.
The source sets hasSavedRef.current only after a successful addDoc; a failed
one leaves it false. -/
def runSaveEffects (s : SessionState) (userPresent : Bool) :
    Bool → List Bool → SaveRunStats
  | hasSaved, [] => ⟨0, 0, hasSaved⟩
  | hasSaved, ok :: rest =>
      if saveHistoryFires s userPresent hasSaved then
        let stats := runSaveEffects s userPresent (if ok then true else hasSaved) rest
        ⟨stats.issued + 1, stats.succeeded + (if ok then 1 else 0), stats.hasSavedAfter⟩
      else runSaveEffects s userPresent hasSaved rest

/-- The submission gate of the interactive form (dashboard.tsx lines 156-160):
parseInt of the count field (none = NaN) is rejected when falsy, below 3 or
above 20. parseInt never yields a non-integer, so the Number.isInteger arm of
the source condition is always false and is omitted. -/
def formRejectsCount : Option Int → Bool
  | none => true
  | some n => n == 0 || n < 3 || 20 < n

end Quiziq

namespace Quiziq

/-! ## Rate limiter lemmas -/

theorem checkRateLimit_same_period (d : RateLimitData) (t m : String)
    (hd : d.lastDailyReset = t) (hm : d.lastMonthlyReset = m)
    (h1 : d.dailyCount < DAILY_LIMIT) (h2 : d.monthlyCount < MONTHLY_LIMIT) :
    checkRateLimit (some d) t m =
      (⟨true, none, some (DAILY_LIMIT - (d.dailyCount + 1), MONTHLY_LIMIT - (d.monthlyCount + 1))⟩,
       some ⟨d.dailyCount + 1, d.monthlyCount + 1, t, m⟩) := by
  simp [checkRateLimit, hd, hm, not_le.mpr h1, not_le.mpr h2]

theorem checkRateLimit_new_day (d : RateLimitData) (t m : String)
    (hd : d.lastDailyReset ≠ t) (hm : d.lastMonthlyReset = m)
    (h2 : d.monthlyCount < MONTHLY_LIMIT) :
    checkRateLimit (some d) t m =
      (⟨true, none, some (DAILY_LIMIT - 1, MONTHLY_LIMIT - (d.monthlyCount + 1))⟩,
       some ⟨1, d.monthlyCount + 1, t, m⟩) := by
  have hd0 : ¬ DAILY_LIMIT ≤ 0 := by simp [DAILY_LIMIT]
  simp [checkRateLimit, hd, hm, hd0, not_le.mpr h2]

theorem checkRateLimit_rejected_store (store : Option RateLimitData) (t m : String)
    (h : (checkRateLimit store t m).1.allowed = false) :
    (checkRateLimit store t m).2 = store := by
  cases store with
  | none => simp [checkRateLimit] at h
  | some d =>
      by_cases h1 : DAILY_LIMIT ≤ (if d.lastDailyReset = t then d.dailyCount else (0 : Nat))
      · simp [checkRateLimit, h1]
      · by_cases hmm : MONTHLY_LIMIT ≤ (if d.lastMonthlyReset = m then d.monthlyCount else (0 : Nat))
        · simp [checkRateLimit, h1, hmm]
        · simp [checkRateLimit, h1, hmm] at h

theorem iterateCheck_closed (t m : String) :
    ∀ n, 0 < n → n ≤ DAILY_LIMIT → iterateCheck t m n = some ⟨n, n, t, m⟩ := by
  intro n
  induction n with
  | zero => intro h; omega
  | succ k ih =>
      intro _ hle
      cases Nat.eq_zero_or_pos k with
      | inl h0 => subst h0; rfl
      | inr hpos =>
          have hk : k + 1 ≤ 20 := hle
          have hstate := ih hpos (by omega)
          show (checkRateLimit (iterateCheck t m k) t m).2 = _
          rw [hstate, checkRateLimit_same_period _ _ _ rfl rfl
            (by show k < 20; omega) (by show k < 100; omega)]

end Quiziq

namespace Quiziq

theorem nthCallResult_allowed (t m : String) (n : Nat) (h : n < DAILY_LIMIT) :
    nthCallResult t m n =
      ⟨true, none, some (DAILY_LIMIT - (n + 1), MONTHLY_LIMIT - (n + 1))⟩ := by
  cases n with
  | zero => rfl
  | succ k =>
      have hk : k + 1 < 20 := h
      unfold nthCallResult
      rw [iterateCheck_closed t m (k + 1) (Nat.succ_pos k) (by show k + 1 ≤ 20; omega),
        checkRateLimit_same_period _ _ _ rfl rfl
          (by show k + 1 < 20; omega) (by show k + 1 < 100; omega)]

/-- C1: from a fresh identity, the first checkAndConsume call is allowed,
creates the record with both counts 1 stamped with the current UTC period
markers, and reports DAILY_LIMIT - 1 daily quota remaining; every one of the
first DAILY_LIMIT same-day calls is allowed, the next call is rejected with
the daily quota-exceeded reason, and after a UTC date rollover the next call
is allowed again with a fresh daily count of 1. -/
theorem quiziq_c1 (today thisMonth day2 : String) (hday : day2 ≠ today) :
    checkRateLimit none today thisMonth =
      (⟨true, none, some (DAILY_LIMIT - 1, MONTHLY_LIMIT - 1)⟩,
       some ⟨1, 1, today, thisMonth⟩)
    ∧ (∀ n, n < DAILY_LIMIT → (nthCallResult today thisMonth n).allowed = true)
    ∧ nthCallResult today thisMonth DAILY_LIMIT = ⟨false, some dailyLimitMsg, none⟩
    ∧ (checkRateLimit (iterateCheck today thisMonth DAILY_LIMIT) day2 thisMonth).1.allowed = true
    ∧ (checkRateLimit (iterateCheck today thisMonth DAILY_LIMIT) day2 thisMonth).2 =
        some ⟨1, DAILY_LIMIT + 1, day2, thisMonth⟩ := by
  have hfull : iterateCheck today thisMonth DAILY_LIMIT =
      some ⟨DAILY_LIMIT, DAILY_LIMIT, today, thisMonth⟩ :=
    iterateCheck_closed today thisMonth DAILY_LIMIT (by simp [DAILY_LIMIT]) le_rfl
  have hroll := checkRateLimit_new_day ⟨DAILY_LIMIT, DAILY_LIMIT, today, thisMonth⟩ day2 thisMonth
    (by simpa using fun hc => hday hc.symm) rfl (by show DAILY_LIMIT < 100; simp [DAILY_LIMIT])
  refine ⟨rfl, fun n hn => by rw [nthCallResult_allowed today thisMonth n hn], ?_, ?_, ?_⟩
  · unfold nthCallResult
    rw [hfull]
    simp [checkRateLimit, DAILY_LIMIT]
  · rw [hfull, hroll]
  · rw [hfull, hroll]

end Quiziq

namespace Quiziq

/-- Witness for C1 at concrete period strings. -/
theorem quiziq_c1_witness :
    ("2024-01-02" ≠ "2024-01-01")
    ∧ (checkRateLimit none "2024-01-01" "2024-01" =
        (⟨true, none, some (DAILY_LIMIT - 1, MONTHLY_LIMIT - 1)⟩,
         some ⟨1, 1, "2024-01-01", "2024-01"⟩)
      ∧ (∀ n, n < DAILY_LIMIT → (nthCallResult "2024-01-01" "2024-01" n).allowed = true)
      ∧ nthCallResult "2024-01-01" "2024-01" DAILY_LIMIT = ⟨false, some dailyLimitMsg, none⟩
      ∧ (checkRateLimit (iterateCheck "2024-01-01" "2024-01" DAILY_LIMIT)
          "2024-01-02" "2024-01").1.allowed = true
      ∧ (checkRateLimit (iterateCheck "2024-01-01" "2024-01" DAILY_LIMIT)
          "2024-01-02" "2024-01").2 = some ⟨1, DAILY_LIMIT + 1, "2024-01-02", "2024-01"⟩) :=
  ⟨by decide, quiziq_c1 "2024-01-01" "2024-01" "2024-01-02" (by decide)⟩

/-- C3 counterexample: a call that is rejected on the monthly limit after a
daily rollover was computed in memory; the stored record keeps the stale
daily marker, so the rollover was not persisted. -/
theorem quiziq_c3_cex :
    (checkRateLimit (some ⟨5, 100, "2024-01-01", "2024-01"⟩) "2024-01-02" "2024-01").1.allowed
        = false
    ∧ (checkRateLimit (some ⟨5, 100, "2024-01-01", "2024-01"⟩) "2024-01-02" "2024-01").2
        = some ⟨5, 100, "2024-01-01", "2024-01"⟩
    ∧ ("2024-01-01" : String) ≠ "2024-01-02" := by
  refine ⟨?_, ?_, by decide⟩ <;> decide

/-- C3 as the code has it: a rejected checkAndConsume call leaves the stored
record entirely unchanged; neither the increment nor the in-memory period
rollover is written back. -/
theorem quiziq_c3 (store : Option RateLimitData) (today thisMonth : String)
    (h : (checkRateLimit store today thisMonth).1.allowed = false) :
    (checkRateLimit store today thisMonth).2 = store :=
  checkRateLimit_rejected_store store today thisMonth h

/-- Witness for C3 at a concrete rejected call. -/
theorem quiziq_c3_witness :
    (checkRateLimit (some ⟨20, 30, "2024-01-01", "2024-01"⟩) "2024-01-01" "2024-01").1.allowed
        = false
    ∧ (checkRateLimit (some ⟨20, 30, "2024-01-01", "2024-01"⟩) "2024-01-01" "2024-01").2
        = some ⟨20, 30, "2024-01-01", "2024-01"⟩ :=
  ⟨by decide, quiziq_c3 (some ⟨20, 30, "2024-01-01", "2024-01"⟩) "2024-01-01" "2024-01" (by decide)⟩

end Quiziq

namespace Quiziq

/-- A concrete POST request with an invalid mode, a valid user and available
quota. -/
def c4Request : QuizRequest :=
  ⟨"POST", some "bogus", some "x", none, none, none, some 5, some "user1"⟩

/-- C4 counterexample: the invalid-mode request is rejected with the
validation error, yet the rate limiter has already been consulted - a fresh
identity ends the call with a stored record counting this rejected request. -/
theorem quiziq_c4_cex :
    (handlerValidate c4Request none "2024-01-01" "2024-01").1 = ApiOutcome.invalidMode
    ∧ (handlerValidate c4Request none "2024-01-01" "2024-01").2 =
        some ⟨1, 1, "2024-01-01", "2024-01"⟩ := by
  refine ⟨?_, ?_⟩ <;> decide

/-- C4 as the code has it: after the method and userId guards, the handler
consults the rate limiter first and only then validates mode and content. A
denial short-circuits with the rate-limit response regardless of the mode; an
invalid mode is rejected only after checkRateLimit ran, so the stored record
already reflects that call (incremented when quota was available). -/
theorem quiziq_c4 (req : QuizRequest) (store : Option RateLimitData)
    (today thisMonth : String)
    (hm : req.method = "POST") (hu : isFalsyStr req.userId = false) :
    ((checkRateLimit store today thisMonth).1.allowed = false →
      handlerValidate req store today thisMonth =
        (ApiOutcome.rateLimited (checkRateLimit store today thisMonth).1.reason, store))
    ∧ ((checkRateLimit store today thisMonth).1.allowed = true →
        ¬ (req.mode = some "topic" ∨ req.mode = some "studyGuide") →
        handlerValidate req store today thisMonth =
          (ApiOutcome.invalidMode, (checkRateLimit store today thisMonth).2)) := by
  constructor
  · intro hrl
    simp [handlerValidate, hm, hu, hrl,
      checkRateLimit_rejected_store store today thisMonth hrl]
  · intro hrl hmode
    simp [handlerValidate, hm, hu, hrl, hmode]

/-- Witness for C4: the concrete invalid-mode request above. -/
theorem quiziq_c4_witness :
    (c4Request.method = "POST" ∧ isFalsyStr c4Request.userId = false
      ∧ (checkRateLimit none "2024-01-01" "2024-01").1.allowed = true
      ∧ ¬ (c4Request.mode = some "topic" ∨ c4Request.mode = some "studyGuide"))
    ∧ handlerValidate c4Request none "2024-01-01" "2024-01" =
        (ApiOutcome.invalidMode, (checkRateLimit none "2024-01-01" "2024-01").2) :=
  ⟨⟨by decide, by decide, by decide, by decide⟩,
    (quiziq_c4 c4Request none "2024-01-01" "2024-01" (by decide) (by decide)).2
      (by decide) (by decide)⟩

/-- The concrete upstream payload for C5: four options but answerIndex 99. -/
def c5BadQuestion : Question := ⟨"q", ["a", "b", "c", "d"], 99, "e"⟩

/-- C5 counterexample: the endpoint returns the out-of-range payload as a
success - no answerIndex validation happens between parse and response. -/
theorem quiziq_c5_cex :
    normalizeResponse ⟨"T", [c5BadQuestion]⟩ 5 = Except.ok ⟨"T", [c5BadQuestion]⟩
    ∧ ¬ questionInvariant c5BadQuestion := by
  exact ⟨rfl, by decide⟩

/-- C5 as the code has it: the endpoint never checks answerIndex. A successful
normalization only drops questions from the tail, so every returned question
is one of the upstream questions, and the QuizQuestion invariant holds for the
response exactly when the upstream questions that survive satisfy it - an
invariant-violating upstream payload is passed through as a 200 success. -/
theorem quiziq_c5 (parsed : Quiz) (requested : Nat) (out : Quiz)
    (h : normalizeResponse parsed requested = Except.ok out) :
    (∀ q ∈ out.questions, q ∈ parsed.questions)
    ∧ ((∀ q ∈ parsed.questions, questionInvariant q) →
        ∀ q ∈ out.questions, questionInvariant q) := by
  have hsub : ∀ q ∈ out.questions, q ∈ parsed.questions := by
    intro q hq
    unfold normalizeResponse at h
    split at h
    · exact absurd h (by simp)
    · split at h
      · cases h
        exact List.mem_of_mem_take (by simpa using hq)
      · cases h
        exact hq
  exact ⟨hsub, fun hall q hq => hall q (hsub q hq)⟩

/-- Witness for C5: a well-formed payload passed through unchanged. -/
theorem quiziq_c5_witness :
    normalizeResponse ⟨"T", [⟨"q", ["True", "False"], 0, "e"⟩]⟩ 5 =
        Except.ok ⟨"T", [⟨"q", ["True", "False"], 0, "e"⟩]⟩
    ∧ (∀ q ∈ (⟨"T", [⟨"q", ["True", "False"], 0, "e"⟩]⟩ : Quiz).questions,
        q ∈ (⟨"T", [⟨"q", ["True", "False"], 0, "e"⟩]⟩ : Quiz).questions) :=
  ⟨rfl, (quiziq_c5 ⟨"T", [⟨"q", ["True", "False"], 0, "e"⟩]⟩ 5
    ⟨"T", [⟨"q", ["True", "False"], 0, "e"⟩]⟩ rfl).1⟩

end Quiziq

namespace Quiziq

/-- C6: for a parsed payload with a non-empty questions sequence the
normalizer succeeds; when the upstream over-delivered the result is exactly
the first `requested` questions (the excess cut from the tail), when it
under-delivered or matched, the payload passes through unchanged, and in
every case the returned length is min of the two. -/
theorem quiziq_c6 (parsed : Quiz) (requested : Nat) (hne : parsed.questions ≠ []) :
    (requested < parsed.questions.length →
      normalizeResponse parsed requested =
        Except.ok ⟨parsed.title, parsed.questions.take requested⟩
      ∧ (parsed.questions.take requested).length = requested)
    ∧ (parsed.questions.length ≤ requested →
        normalizeResponse parsed requested = Except.ok parsed)
    ∧ (∀ out, normalizeResponse parsed requested = Except.ok out →
        out.questions.length = min parsed.questions.length requested
        ∧ out.questions.length ≤ requested) := by
  have hlen : parsed.questions.length ≠ 0 := by
    simpa [List.length_eq_zero] using hne
  refine ⟨fun hover => ⟨?_, ?_⟩, fun hunder => ?_, fun out hout => ?_⟩
  · simp [normalizeResponse, hlen, hover]
  · simp [List.length_take]; omega
  · simp [normalizeResponse, hlen, not_lt.mpr hunder]
  · unfold normalizeResponse at hout
    split at hout
    · exact absurd hout (by simp)
    · split at hout
      · cases hout
        constructor
        · simp [List.length_take]; omega
        · simp [List.length_take]
      · cases hout
        constructor
        · simp; omega
        · omega

/-- Witness for C6: a three-question payload trimmed to two. -/
theorem quiziq_c6_witness :
    ((⟨"T", [⟨"a", [], 0, ""⟩, ⟨"b", [], 0, ""⟩, ⟨"c", [], 0, ""⟩]⟩ : Quiz).questions ≠ [])
    ∧ normalizeResponse ⟨"T", [⟨"a", [], 0, ""⟩, ⟨"b", [], 0, ""⟩, ⟨"c", [], 0, ""⟩]⟩ 2 =
        Except.ok ⟨"T", ([⟨"a", [], 0, ""⟩, ⟨"b", [], 0, ""⟩, ⟨"c", [], 0, ""⟩] :
          List Question).take 2⟩ :=
  ⟨by decide, ((quiziq_c6 ⟨"T", [⟨"a", [], 0, ""⟩, ⟨"b", [], 0, ""⟩, ⟨"c", [], 0, ""⟩]⟩ 2
    (by decide)).1 (by decide)).1⟩

/-- C7 counterexample: count = 0 is below 3 but is not clamped to 3 - the
falsy-number fallback turns it into the default 10. -/
theorem quiziq_c7_cex :
    ((0 : Int) < 3) ∧ safeCount (some 0) ≠ 3 ∧ safeCount (some 0) = 10 := by
  refine ⟨by decide, by decide, by decide⟩

/-- C7 as the code has it: the endpoint clamps count into 3..20 and never
rejects it - every value below 3 becomes 3 except the falsy 0 (and a missing
or non-numeric count), which becomes the default 10; values above 20 become
20; with the other validations passing, any count value still reaches the
upstream stage carrying the clamped count. The interactive form instead
rejects before submission exactly the counts outside 3..20 (a non-numeric
field parses to NaN and is rejected). -/
theorem quiziq_c7 :
    (∀ c : Option Int, 3 ≤ safeCount c ∧ safeCount c ≤ 20)
    ∧ (∀ n : Int, n < 3 → n ≠ 0 → safeCount (some n) = 3)
    ∧ (∀ n : Int, 20 < n → safeCount (some n) = 20)
    ∧ safeCount (some 0) = 10 ∧ safeCount none = 10
    ∧ (∀ (req : QuizRequest) (store : Option RateLimitData) (today thisMonth : String),
        req.method = "POST" → isFalsyStr req.userId = false →
        (checkRateLimit store today thisMonth).1.allowed = true →
        req.mode = some "topic" → isFalsyStr req.topic = false →
        (handlerValidate req store today thisMonth).1 =
          ApiOutcome.proceed (req.topic.getD "") (safeCount req.count)
            (safeQuestionTypeOf req.questionType) (safeDifficultyOf req.difficulty))
    ∧ (∀ n : Int, formRejectsCount (some n) = false ↔ 3 ≤ n ∧ n ≤ 20)
    ∧ formRejectsCount none = true := by
  refine ⟨fun c => ?_, fun n h1 h2 => ?_, fun n h => ?_, by decide, by decide,
    fun req store today thisMonth hm hu hrl hmode htopic => ?_, fun n => ?_, by decide⟩
  · cases c with
    | none => exact ⟨by decide, by decide⟩
    | some n =>
        unfold safeCount numberOrTen
        constructor
        · by_cases h0 : n = 0
          · simp [h0]
          · simp only [h0, if_false]
            omega
        · by_cases h0 : n = 0
          · simp [h0]
          · simp only [h0, if_false]
            omega
  · unfold safeCount numberOrTen
    simp [h2]
    omega
  · unfold safeCount numberOrTen
    have h0 : n ≠ 0 := by omega
    simp [h0]
    omega
  · simp [handlerValidate, hm, hu, hrl, hmode, htopic]
  · unfold formRejectsCount
    constructor
    · intro h
      simp at h
      omega
    · intro h
      simp
      omega

/-- Witness for C7: the clamp at the boundary values 2 and 25. -/
theorem quiziq_c7_witness :
    safeCount (some 2) = 3 ∧ safeCount (some 25) = 20
    ∧ (formRejectsCount (some 10) = false ↔ 3 ≤ (10 : Int) ∧ (10 : Int) ≤ 20) :=
  ⟨quiziq_c7.2.1 2 (by decide) (by decide), quiziq_c7.2.2.1 25 (by decide),
    quiziq_c7.2.2.2.2.2.2.1 10⟩

end Quiziq

namespace Quiziq
/-! ## Session state machine lemmas -/

theorem handleSubmitAnswer_forced (s : SessionState) (q : Question) (sel : Int) (now : Nat)
    (hshow : s.showExplanation = false)
    (hq : s.questions[s.currentQuestion]? = some q) :
    handleSubmitAnswer s (some (some sel)) now =
      { s with
        score := if sel = q.answerIndex then s.score + 1 else s.score
        currentStreak := if sel = q.answerIndex then s.currentStreak + 1 else 0
        bestStreak := max s.bestStreak (if sel = q.answerIndex then s.currentStreak + 1 else 0)
        answers := s.answers ++
          [⟨some sel, q.answerIndex, elapsedSecondsOf s.questionStartedAt now⟩]
        responseTimes := s.responseTimes ++ [elapsedSecondsOf s.questionStartedAt now]
        showExplanation := true } := by
  simp [handleSubmitAnswer, hshow, hq]

theorem handleNextQuestion_advance (s : SessionState) (now : Nat)
    (h : s.currentQuestion < s.questions.length - 1) :
    handleNextQuestion s now =
      resetPerQuestionState { s with currentQuestion := s.currentQuestion + 1 } now := by
  simp [handleNextQuestion, h]

theorem handleNextQuestion_complete (s : SessionState) (now : Nat)
    (h : ¬ s.currentQuestion < s.questions.length - 1) :
    handleNextQuestion s now = { s with quizComplete := true } := by
  simp [handleNextQuestion, h]

theorem countCorrect_nil_right (qs : List Question) : countCorrect qs [] = 0 := by
  simp [countCorrect]

theorem countCorrect_cons (q : Question) (tl : List Question) (sel : Int) (sels : List Int) :
    countCorrect (q :: tl) (sel :: sels) =
      countCorrect tl sels + (if sel = q.answerIndex then 1 else 0) := by
  simp [countCorrect, List.countP_cons]

theorem playQuiz_run : ∀ (pairs : List (Int × Nat)) (s : SessionState),
    s.showExplanation = false → s.quizComplete = false →
    s.questions.length = s.currentQuestion + pairs.length →
    (playQuiz s pairs).questions = s.questions
    ∧ (playQuiz s pairs).score =
        s.score + countCorrect (s.questions.drop s.currentQuestion) (pairs.map Prod.fst)
    ∧ (playQuiz s pairs).quizComplete = !pairs.isEmpty := by
  intro pairs
  induction pairs with
  | nil =>
      intro s h1 h2 _
      exact ⟨rfl, by simp [playQuiz, countCorrect], by simp [playQuiz]; exact h2⟩
  | cons p rest ih =>
      intro s h1 h2 hlen
      obtain ⟨sel, now⟩ := p
      simp only [playQuiz]
      have hi : s.currentQuestion < s.questions.length := by
        simp only [List.length_cons] at hlen
        omega
      have hq : s.questions[s.currentQuestion]? = some s.questions[s.currentQuestion] :=
        List.getElem?_eq_getElem hi
      have hdrop : s.questions.drop s.currentQuestion =
          s.questions[s.currentQuestion] :: s.questions.drop (s.currentQuestion + 1) :=
        List.drop_eq_getElem_cons hi
      have hsub := handleSubmitAnswer_forced s (s.questions[s.currentQuestion])
        sel now h1 hq
      rw [hsub]
      cases rest with
      | nil =>
          rw [handleNextQuestion_complete _ now (by
            show ¬ s.currentQuestion < s.questions.length - 1
            simp only [List.length_cons, List.length_nil] at hlen
            omega)]
          refine ⟨rfl, ?_, rfl⟩
          show (if sel = s.questions[s.currentQuestion].answerIndex
              then s.score + 1 else s.score) =
            s.score + countCorrect (s.questions.drop s.currentQuestion) [sel]
          rw [hdrop, countCorrect_cons, countCorrect_nil_right]
          by_cases hc : sel = s.questions[s.currentQuestion].answerIndex <;>
            simp [hc]
      | cons p2 rest2 =>
          rw [handleNextQuestion_advance _ now (by
            show s.currentQuestion < s.questions.length - 1
            simp only [List.length_cons] at hlen
            omega)]
          have hres := ih (resetPerQuestionState
              { handleSubmitAnswer s (some (some sel)) now with
                currentQuestion := s.currentQuestion + 1 } now)
            rfl
            (by
              show (handleSubmitAnswer s (some (some sel)) now).quizComplete = false
              rw [hsub]
              exact h2)
            (by
              show (handleSubmitAnswer s (some (some sel)) now).questions.length =
                s.currentQuestion + 1 + (p2 :: rest2).length
              rw [hsub]
              show s.questions.length = s.currentQuestion + 1 + (p2 :: rest2).length
              simp only [List.length_cons] at hlen ⊢
              omega)
          rw [hsub] at hres
          refine ⟨hres.1.trans rfl, ?_, ?_⟩
          · rw [hres.2.1]
            show (if sel = s.questions[s.currentQuestion].answerIndex
                then s.score + 1 else s.score) +
              countCorrect (s.questions.drop (s.currentQuestion + 1))
                ((p2 :: rest2).map Prod.fst) =
              s.score + countCorrect (s.questions.drop s.currentQuestion)
                (sel :: (p2 :: rest2).map Prod.fst)
            rw [hdrop, countCorrect_cons]
            by_cases hc : sel = s.questions[s.currentQuestion].answerIndex <;>
              simp [hc] <;> omega
          · rw [hres.2.2]
            rfl

end Quiziq

namespace Quiziq

/-- C8: playing a full session of N questions and submitting a selection for
each ends in the completed state with score equal to the number of selections
that hit the answerIndex, the displayed percent is the rounded K/N ratio, and
each single submit increments the score exactly when the submitted index
equals the current answerIndex. -/
theorem quiziq_c8 (title : String) (qs : List Question) (t0 : Nat)
    (pairs : List (Int × Nat)) (hlen : pairs.length = qs.length) (hne : qs ≠ []) :
    (playQuiz (initialSession title qs t0) pairs).score = countCorrect qs (pairs.map Prod.fst)
    ∧ (playQuiz (initialSession title qs t0) pairs).quizComplete = true
    ∧ displayPercent (playQuiz (initialSession title qs t0) pairs) =
        jsRoundDiv (100 * countCorrect qs (pairs.map Prod.fst)) qs.length
    ∧ (∀ (s : SessionState) (q : Question) (sel : Int) (now : Nat),
        s.showExplanation = false → s.questions[s.currentQuestion]? = some q →
        (handleSubmitAnswer s (some (some sel)) now).score =
          s.score + (if sel = q.answerIndex then 1 else 0)) := by
  have hrun := playQuiz_run pairs (initialSession title qs t0) rfl rfl
    (by show qs.length = 0 + pairs.length; omega)
  have hq : (initialSession title qs t0).questions = qs := rfl
  have hscore : (playQuiz (initialSession title qs t0) pairs).score =
      countCorrect qs (pairs.map Prod.fst) := by
    rw [hrun.2.1]
    show 0 + countCorrect (qs.drop 0) (pairs.map Prod.fst) = _
    rw [List.drop_zero, Nat.zero_add]
  have hcomplete : (playQuiz (initialSession title qs t0) pairs).quizComplete = true := by
    rw [hrun.2.2]
    cases pairs with
    | nil =>
        exact absurd (List.length_eq_zero.mp hlen.symm) hne
    | cons a l => rfl
  refine ⟨hscore, hcomplete, ?_, ?_⟩
  · unfold displayPercent
    rw [hrun.1, hscore]
    exact if_pos (List.length_pos.mpr hne)
  · intro s q sel now h1 h2
    rw [handleSubmitAnswer_forced s q sel now h1 h2]
    show (if sel = q.answerIndex then s.score + 1 else s.score) = _
    by_cases hc : sel = q.answerIndex <;> simp [hc]

/-- Witness for C8: a two-question session answered with one hit. -/
theorem quiziq_c8_witness :
    ([((0 : Int), (500 : Nat)), (0, 1500)].length =
      ([⟨"q", ["True", "False"], 0, "e"⟩, ⟨"q2", ["True", "False"], 1, "e"⟩] :
        List Question).length)
    ∧ (playQuiz (initialSession "T"
        [⟨"q", ["True", "False"], 0, "e"⟩, ⟨"q2", ["True", "False"], 1, "e"⟩] 0)
        [(0, 500), (0, 1500)]).score =
      countCorrect [⟨"q", ["True", "False"], 0, "e"⟩, ⟨"q2", ["True", "False"], 1, "e"⟩]
        ([((0 : Int), (500 : Nat)), (0, 1500)].map Prod.fst) :=
  ⟨by decide,
    (quiziq_c8 "T" [⟨"q", ["True", "False"], 0, "e"⟩, ⟨"q2", ["True", "False"], 1, "e"⟩] 0
      [(0, 500), (0, 1500)] (by decide) (by decide)).1⟩

end Quiziq

namespace Quiziq

/-! ## 50/50 lifeline lemmas -/

theorem intOfNat_injective : Function.Injective Int.ofNat :=
  fun _ _ h => Int.ofNat.inj h

theorem mem_incorrectIndices (q : Question) (j : Int) :
    j ∈ incorrectIndices q ↔ 0 ≤ j ∧ j < q.options.length ∧ j ≠ q.answerIndex := by
  unfold incorrectIndices
  rw [List.mem_filter, List.mem_map]
  constructor
  · rintro ⟨⟨i, hi, rfl⟩, hdec⟩
    rw [List.mem_range] at hi
    refine ⟨Int.ofNat_nonneg i, ?_, by simpa using hdec⟩
    simp only [Int.ofNat_eq_coe]
    exact_mod_cast hi
  · rintro ⟨h0, hlt, hne⟩
    refine ⟨⟨j.toNat, List.mem_range.mpr (by omega), ?_⟩, by simpa using hne⟩
    simp only [Int.ofNat_eq_coe]
    exact Int.toNat_of_nonneg h0

theorem incorrectIndices_nodup (q : Question) : (incorrectIndices q).Nodup := by
  unfold incorrectIndices
  exact ((List.nodup_range q.options.length).map intOfNat_injective).filter _

theorem length_le_filter_ne (a : Int) :
    ∀ l : List Int, l.Nodup → l.length ≤ (l.filter (fun i => i ≠ a)).length + 1 := by
  intro l
  induction l with
  | nil => intro _; simp
  | cons b tl ih =>
      intro hnd
      rw [List.filter_cons]
      by_cases hb : b = a
      · subst hb
        have hbt : b ∉ tl := (List.nodup_cons.mp hnd).1
        have hfeq : tl.filter (fun i => i ≠ b) = tl := by
          rw [List.filter_eq_self]
          intro x hx
          simp only [decide_eq_true_eq]
          exact fun he => hbt (he ▸ hx)
        rw [if_neg (by simp), hfeq, List.length_cons]
      · rw [if_pos (by simpa using hb), List.length_cons, List.length_cons]
        have := ih (List.nodup_cons.mp hnd).2
        omega

theorem incorrectIndices_length (q : Question) :
    q.options.length - 1 ≤ (incorrectIndices q).length := by
  have hnd : ((List.range q.options.length).map Int.ofNat).Nodup :=
    (List.nodup_range q.options.length).map intOfNat_injective
  have h := length_le_filter_ne q.answerIndex _ hnd
  have hlen : ((List.range q.options.length).map Int.ofNat).length =
      q.options.length := by simp
  unfold incorrectIndices
  omega

end Quiziq

namespace Quiziq

/-- C9: with at least four options, the question unrevealed and the lifeline
unused, 50/50 eliminates exactly two distinct option indices, none of them the
answerIndex, marks the lifeline used, clears the selection exactly when the
selection was eliminated, and a second invocation on the resulting state is a
no-op, so exactly two options stay eliminated, never four. -/
theorem quiziq_c9 (s : SessionState) (q : Question) (shuffle shuffle2 : List Int → List Int)
    (hq : s.questions[s.currentQuestion]? = some q)
    (hopts : 4 ≤ q.options.length)
    (hshow : s.showExplanation = false)
    (hused : s.fiftyFiftyUsed = false)
    (hperm : (shuffle (incorrectIndices q)).Perm (incorrectIndices q)) :
    (handleUseFiftyFifty s shuffle).eliminatedOptions.length = 2
    ∧ (handleUseFiftyFifty s shuffle).eliminatedOptions.Nodup
    ∧ (∀ j ∈ (handleUseFiftyFifty s shuffle).eliminatedOptions,
        j ≠ q.answerIndex ∧ 0 ≤ j ∧ j < q.options.length)
    ∧ (handleUseFiftyFifty s shuffle).fiftyFiftyUsed = true
    ∧ (∀ sel, s.selectedAnswer = some sel →
        ((handleUseFiftyFifty s shuffle).selectedAnswer = none ↔
          sel ∈ (handleUseFiftyFifty s shuffle).eliminatedOptions))
    ∧ handleUseFiftyFifty (handleUseFiftyFifty s shuffle) shuffle2 =
        handleUseFiftyFifty s shuffle := by
  have hr : handleUseFiftyFifty s shuffle =
      { s with
        eliminatedOptions := (shuffle (incorrectIndices q)).take 2
        fiftyFiftyUsed := true
        selectedAnswer :=
          match s.selectedAnswer with
          | some sel =>
              if ((shuffle (incorrectIndices q)).take 2).contains sel then none else some sel
          | none => none } := by
    simp [handleUseFiftyFifty, hshow, hused, hq, not_lt.mpr hopts]
  have hlenshuf : (shuffle (incorrectIndices q)).length = (incorrectIndices q).length :=
    hperm.length_eq
  have hlen3 := incorrectIndices_length q
  have hmemtake : ∀ j, j ∈ (shuffle (incorrectIndices q)).take 2 → j ∈ incorrectIndices q :=
    fun j hj => hperm.mem_iff.mp (List.mem_of_mem_take hj)
  refine ⟨?_, ?_, ?_, ?_, ?_, ?_⟩
  · rw [hr]
    show ((shuffle (incorrectIndices q)).take 2).length = 2
    rw [List.length_take]
    omega
  · rw [hr]
    show ((shuffle (incorrectIndices q)).take 2).Nodup
    exact (hperm.symm.nodup (incorrectIndices_nodup q)).sublist
      (List.take_sublist 2 (shuffle (incorrectIndices q)))
  · rw [hr]
    intro j hj
    have hj2 := (mem_incorrectIndices q j).mp (hmemtake j hj)
    exact ⟨hj2.2.2, hj2.1, hj2.2.1⟩
  · rw [hr]
  · intro sel hsel
    rw [hr]
    show (match s.selectedAnswer with
        | some sel =>
            if ((shuffle (incorrectIndices q)).take 2).contains sel then none else some sel
        | none => none) = none ↔ sel ∈ (shuffle (incorrectIndices q)).take 2
    rw [hsel]
    by_cases hmem : sel ∈ (shuffle (incorrectIndices q)).take 2 <;> simp [hmem]
  · rw [hr]
    simp [handleUseFiftyFifty]

/-- A four-option question and a fresh session at it, for the C9 witness. -/
def c9Question : Question := ⟨"q", ["a", "b", "c", "d"], 0, "e"⟩

def c9State : SessionState := initialSession "T" [c9Question] 0

/-- Witness for C9 with the identity shuffle. -/
theorem quiziq_c9_witness :
    (handleUseFiftyFifty c9State id).eliminatedOptions.length = 2
    ∧ c9Question.options.length = 4 :=
  ⟨(quiziq_c9 c9State c9Question id id rfl (by decide) rfl rfl (List.Perm.refl _)).1,
    by decide⟩

end Quiziq

namespace Quiziq

/-! ## Practice mode and history save lemmas -/

theorem practiceMode_handleSelectAnswer (s : SessionState) (i : Int) :
    (handleSelectAnswer s i).practiceMode = s.practiceMode := by
  unfold handleSelectAnswer
  split <;> rfl

theorem practiceMode_handleSubmitAnswer (s : SessionState) (f : Option (Option Int)) (now : Nat) :
    (handleSubmitAnswer s f now).practiceMode = s.practiceMode := by
  unfold handleSubmitAnswer
  split
  · rfl
  · split
    · rfl
    · dsimp only
      split
      · rfl
      · rfl

theorem practiceMode_handleNextQuestion (s : SessionState) (now : Nat) :
    (handleNextQuestion s now).practiceMode = s.practiceMode := by
  unfold handleNextQuestion
  split <;> rfl

theorem practiceMode_handleUseFiftyFifty (s : SessionState) (sh : List Int → List Int) :
    (handleUseFiftyFifty s sh).practiceMode = s.practiceMode := by
  unfold handleUseFiftyFifty
  repeat' split
  all_goals rfl

theorem practiceMode_handleUseHint (s : SessionState) :
    (handleUseHint s).practiceMode = s.practiceMode := by
  unfold handleUseHint
  repeat' split
  all_goals rfl

theorem practiceMode_handleRetryMissedQuestions (s : SessionState) (now : Nat)
    (h : s.practiceMode = true) : (handleRetryMissedQuestions s now).practiceMode = true := by
  unfold handleRetryMissedQuestions
  dsimp only
  split
  · exact h
  · rfl

theorem practiceMode_applyOp (s : SessionState) (op : SessionOp)
    (h : s.practiceMode = true) : (applyOp s op).practiceMode = true := by
  cases op with
  | select i =>
      show (handleSelectAnswer s i).practiceMode = true
      rw [practiceMode_handleSelectAnswer]
      exact h
  | submit f now =>
      show (handleSubmitAnswer s f now).practiceMode = true
      rw [practiceMode_handleSubmitAnswer]
      exact h
  | next now =>
      show (handleNextQuestion s now).practiceMode = true
      rw [practiceMode_handleNextQuestion]
      exact h
  | fiftyFifty sh =>
      show (handleUseFiftyFifty s sh).practiceMode = true
      rw [practiceMode_handleUseFiftyFifty]
      exact h
  | useHint =>
      show (handleUseHint s).practiceMode = true
      rw [practiceMode_handleUseHint]
      exact h
  | retryMissed now => exact practiceMode_handleRetryMissedQuestions s now h

theorem practiceMode_applyOps (ops : List SessionOp) : ∀ s : SessionState,
    s.practiceMode = true → (applyOps s ops).practiceMode = true := by
  induction ops with
  | nil => intro s h; exact h
  | cons op rest ih => intro s h; exact ih _ (practiceMode_applyOp s op h)

theorem handleRetryMissedQuestions_spec (s : SessionState) (now : Nat)
    (hmiss : missedQuestions s.questions s.answers ≠ []) :
    (handleRetryMissedQuestions s now).questions = missedQuestions s.questions s.answers
    ∧ (handleRetryMissedQuestions s now).practiceMode = true := by
  have hfalse : (missedQuestions s.questions s.answers).isEmpty = false := by
    rw [Bool.eq_false_iff]
    intro hemp
    exact hmiss (List.isEmpty_iff.mp hemp)
  constructor <;> simp [handleRetryMissedQuestions, hfalse]

/-- C2: invoking retry-missed on a completed session with a non-empty missed
set yields a new session whose question list is exactly the missed questions
in order, with practiceMode true; and no matter what session operations follow,
the history-save effect guard stays false for the practice session, so
completion never issues a history write. -/
theorem quiziq_c2 (s : SessionState) (now : Nat)
    (hcomplete : s.quizComplete = true)
    (hmiss : missedQuestions s.questions s.answers ≠ []) :
    (handleRetryMissedQuestions s now).questions = missedQuestions s.questions s.answers
    ∧ (handleRetryMissedQuestions s now).questions.length =
        (missedQuestions s.questions s.answers).length
    ∧ (handleRetryMissedQuestions s now).practiceMode = true
    ∧ (∀ (ops : List SessionOp) (userPresent hasSaved : Bool),
        saveHistoryFires (applyOps (handleRetryMissedQuestions s now) ops) userPresent hasSaved
          = false) := by
  obtain ⟨hqs, hpm⟩ := handleRetryMissedQuestions_spec s now hmiss
  refine ⟨hqs, by rw [hqs], hpm, fun ops userPresent hasSaved => ?_⟩
  have hpm2 := practiceMode_applyOps ops (handleRetryMissedQuestions s now) hpm
  simp [saveHistoryFires, hpm2]

/-- A completed two-question session with one miss, for the C2 witness. -/
def c2Session : SessionState :=
  playQuiz (initialSession "T"
    [⟨"q", ["True", "False"], 0, "e"⟩, ⟨"q2", ["True", "False"], 1, "e"⟩] 0)
    [(0, 500), (0, 1500)]

/-- Witness for C2 at the concrete completed session. -/
theorem quiziq_c2_witness :
    c2Session.quizComplete = true
    ∧ missedQuestions c2Session.questions c2Session.answers ≠ []
    ∧ (handleRetryMissedQuestions c2Session 2000).questions =
        missedQuestions c2Session.questions c2Session.answers
    ∧ (handleRetryMissedQuestions c2Session 2000).practiceMode = true :=
  ⟨by decide, by decide, (quiziq_c2 c2Session 2000 (by decide) (by decide)).1,
    (quiziq_c2 c2Session 2000 (by decide) (by decide)).2.2.1⟩

theorem runSaveEffects_hasSaved (s : SessionState) (u : Bool) :
    ∀ outcomes : List Bool, runSaveEffects s u true outcomes = ⟨0, 0, true⟩ := by
  intro outcomes
  induction outcomes with
  | nil => rfl
  | cons ok rest ih =>
      have hg : saveHistoryFires s u true = false := by simp [saveHistoryFires]
      unfold runSaveEffects
      simp [hg, ih]

theorem runSaveEffects_succeeded_le_one (s : SessionState) (u : Bool) :
    ∀ (outcomes : List Bool) (hasSaved : Bool),
      (runSaveEffects s u hasSaved outcomes).succeeded ≤ 1 := by
  intro outcomes
  induction outcomes with
  | nil => intro hasSaved; exact Nat.zero_le 1
  | cons ok rest ih =>
      intro hasSaved
      unfold runSaveEffects
      by_cases hg : saveHistoryFires s u hasSaved = true
      · rw [if_pos hg]
        cases ok
        · simpa using ih hasSaved
        · simp [runSaveEffects_hasSaved]
      · rw [if_neg hg]
        exact ih hasSaved

/-- The completed one-question session of the C10 counterexample. -/
def c10Session : SessionState :=
  playQuiz (initialSession "T" [⟨"q", ["True", "False"], 0, "e"⟩] 0) [(0, 500)]

/-- C10 counterexample: a completed, non-practice session whose first save
attempt fails; a re-invocation of the effect issues a second addDoc write,
because hasSavedRef is set only after a successful save. -/
theorem quiziq_c10_cex :
    c10Session.quizComplete = true ∧ c10Session.practiceMode = false
    ∧ (runSaveEffects c10Session true false [false, false]).issued = 2
    ∧ ¬ (runSaveEffects c10Session true false [false, false]).issued ≤ 1 := by
  refine ⟨by decide, by decide, by decide, by decide⟩

/-- C10 as the code has it: once the hasSavedRef flag is set, re-invocations
of the save effect issue no writes at all, and across any run of effect
invocations at most one write succeeds; the save-once guarantee holds for
successful writes, while a failed write leaves the flag unset and permits a
retry on re-invocation. -/
theorem quiziq_c10 (s : SessionState) (userPresent : Bool) (outcomes : List Bool)
    (hasSaved : Bool) :
    (runSaveEffects s userPresent true outcomes).issued = 0
    ∧ (runSaveEffects s userPresent hasSaved outcomes).succeeded ≤ 1 :=
  ⟨by rw [runSaveEffects_hasSaved], runSaveEffects_succeeded_le_one s userPresent outcomes hasSaved⟩

end Quiziq
